import Mathlib

/-!
Verification of the Workshop booking server's check-in consistency engine.

The definitions below are a shallow embedding of the Express/SQLite server
(`src/unnamed/part_002`, with the user-scoped QR flow also present in
`src/server/index.js`).  Times are modelled as integer milliseconds
(`Date.now()`); the SQLite `qr_tokens.expiresAt` column is stored as a decimal
string and read back with `parseInt`, which for integer "now" values agrees
with integer comparison, so `expiresAt` is embedded as `Int`.  Random tokens,
random lifetimes and wall-clock readings are passed in as explicit arguments.
-/

namespace WorkshopApp

/-! ## Seat ledger: one workshop's reservation/seat state

Embeds `POST /reservations` and `DELETE /reservations` restricted to a single
workshop.  The route-level guards that do not touch seat state (user existence,
workshop existence, workshop date not in the past) are orthogonal to the seat
ledger and only make fewer operations applicable; they are omitted here.
`reservations` holds the userIds holding an active reservation for this
workshop. -/

structure WState where
  total : Int
  available : Int
  reservations : List String
deriving DecidableEq, Repr

inductive ResError
  | notFound
  | full
  | alreadyReserved
deriving DecidableEq, Repr

/-- `POST /reservations` (part_002 lines 167-192): reject when
`availableSeats <= 0` ("workshop full"), then when the (user, workshop) pair
already has a reservation ("already reserved"); otherwise insert the
reservation row and run `UPDATE workshops SET availableSeats=availableSeats-1`
in one transaction. -/
def reserve (u : String) (s : WState) : Except ResError Unit × WState :=
  if s.available ≤ 0 then (.error .full, s)
  else if u ∈ s.reservations then (.error .alreadyReserved, s)
  else (.ok (), { s with available := s.available - 1,
                         reservations := u :: s.reservations })

/-- `DELETE /reservations` (part_002 lines 203-215): 404 when no reservation
row exists for the pair; otherwise delete the row and run
`UPDATE workshops SET availableSeats=availableSeats+1` in one transaction.
There is no cap against `totalSeats` in the source. -/
def cancel (u : String) (s : WState) : Except ResError Unit × WState :=
  if u ∈ s.reservations then
    (.ok (), { s with available := s.available + 1,
                      reservations := s.reservations.erase u })
  else (.error .notFound, s)

inductive SeatOp
  | reserve (u : String)
  | cancel (u : String)
deriving DecidableEq, Repr

/-- Apply one guarded operation; a request whose guard fails returns an error
without mutating the database, so it leaves the state unchanged. -/
def applySeatOp (s : WState) (op : SeatOp) : WState :=
  match op with
  | .reserve u => (reserve u s).2
  | .cancel u => (cancel u s).2

def runSeatOps (s : WState) (ops : List SeatOp) : WState :=
  ops.foldl applySeatOp s

/-- The ledger equation of the spec: `available = total − #active reservations`. -/
def seatEq (s : WState) : Prop :=
  s.available = s.total - s.reservations.length

instance (s : WState) : Decidable (seatEq s) := by
  unfold seatEq; infer_instance

/-- The full seat invariant: the ledger equation plus `0 ≤ available`. -/
def seatInv (s : WState) : Prop :=
  seatEq s ∧ 0 ≤ s.available

instance (s : WState) : Decidable (seatInv s) := by
  unfold seatInv; infer_instance

theorem seatEq_total_preserved (s : WState) (op : SeatOp) :
    seatEq s → seatEq (applySeatOp s op) ∧ (applySeatOp s op).total = s.total := by
  intro h
  cases op with
  | reserve u =>
    unfold applySeatOp reserve
    by_cases h1 : s.available ≤ 0
    · simp [h1, h]
    · by_cases h2 : u ∈ s.reservations
      · simp [h1, h2, h]
      · simp [h1, h2]
        unfold seatEq at h ⊢
        simp only [List.length_cons]
        push_cast
        omega
  | cancel u =>
    unfold applySeatOp cancel
    by_cases h1 : u ∈ s.reservations
    · simp [h1]
      unfold seatEq at h ⊢
      rw [List.length_erase_of_mem h1]
      have hlen : 1 ≤ s.reservations.length := List.length_pos.mpr (by
        intro hnil; rw [hnil] at h1; exact (List.not_mem_nil u) h1)
      push_cast
      omega
    · simp [h1, h]

theorem seatInv_step (s : WState) (op : SeatOp) :
    seatInv s → seatInv (applySeatOp s op) ∧ (applySeatOp s op).total = s.total := by
  rintro ⟨heq, hnn⟩
  refine ⟨⟨(seatEq_total_preserved s op heq).1, ?_⟩, (seatEq_total_preserved s op heq).2⟩
  cases op with
  | reserve u =>
    unfold applySeatOp reserve
    by_cases h1 : s.available ≤ 0
    · simp [h1]; exact hnn
    · by_cases h2 : u ∈ s.reservations
      · simp [h1, h2]; exact hnn
      · simp [h1, h2]; omega
  | cancel u =>
    unfold applySeatOp cancel
    by_cases h1 : u ∈ s.reservations
    · simp [h1]; omega
    · simp [h1]; exact hnn

theorem seatInv_run (s : WState) (ops : List SeatOp) :
    seatInv s → seatInv (runSeatOps s ops) ∧ (runSeatOps s ops).total = s.total := by
  induction ops generalizing s with
  | nil => intro h; exact ⟨h, rfl⟩
  | cons op rest ih =>
    intro h
    have hstep := seatInv_step s op h
    have hrest := ih (applySeatOp s op) hstep.1
    unfold runSeatOps at hrest ⊢
    simp only [List.foldl_cons]
    exact ⟨hrest.1, hrest.2.trans hstep.2⟩

/-- C1 counterexample: the ledger equation alone does not keep `available`
nonnegative.  The state `total = 0`, `available = -2`, two active reservations
satisfies `available = total − #reservations`; the guarded `Cancel "u1"`
succeeds (a reservation for `u1` exists) and leaves `available = -1 < 0`. -/
theorem seat_equation_start_not_sufficient :
    seatEq ⟨0, -2, ["u1", "u2"]⟩ ∧
    (cancel "u1" ⟨0, -2, ["u1", "u2"]⟩).1 = .ok () ∧
    (runSeatOps ⟨0, -2, ["u1", "u2"]⟩ [SeatOp.cancel "u1"]).available < 0 := by
  refine ⟨by decide, rfl, by decide⟩

/-- Claim C1 (amended): for every sequence of guarded Reserve/Cancel
operations on one workshop, if the starting state satisfies
`available = total − #active reservations` AND `0 ≤ available`, then after
every operation the equation still holds, `available` never goes below 0 and
never exceeds `total`. -/
theorem seat_ledger_invariant (s : WState) (ops : List SeatOp)
    (h : seatEq s ∧ 0 ≤ s.available) :
    seatEq (runSeatOps s ops) ∧
    0 ≤ (runSeatOps s ops).available ∧
    (runSeatOps s ops).available ≤ s.total := by
  have hrun := seatInv_run s ops h
  refine ⟨hrun.1.1, hrun.1.2, ?_⟩
  have heq := hrun.1.1
  unfold seatEq at heq
  have htot := hrun.2
  have : (0 : Int) ≤ (runSeatOps s ops).reservations.length := by positivity
  omega

/-- Witness for `seat_ledger_invariant` at a concrete input. -/
theorem seat_ledger_invariant_witness :
    (seatEq ⟨2, 2, []⟩ ∧ (0:Int) ≤ (2:Int)) ∧
    (seatEq (runSeatOps ⟨2, 2, []⟩ [SeatOp.reserve "u1", SeatOp.cancel "u1"]) ∧
     0 ≤ (runSeatOps ⟨2, 2, []⟩ [SeatOp.reserve "u1", SeatOp.cancel "u1"]).available ∧
     (runSeatOps ⟨2, 2, []⟩ [SeatOp.reserve "u1", SeatOp.cancel "u1"]).available ≤ (2:Int)) :=
  ⟨⟨by decide, by decide⟩,
   seat_ledger_invariant ⟨2, 2, []⟩ [SeatOp.reserve "u1", SeatOp.cancel "u1"]
     ⟨by decide, by decide⟩⟩

/-- C3 counterexample: the source's Cancel has no cap.  With
`total = 5`, `available = 5` and one active reservation, Cancel succeeds and
leaves `available = 6 > total`. -/
theorem cancel_increment_uncapped :
    (cancel "u1" ⟨5, 5, ["u1"]⟩).1 = .ok () ∧
    (cancel "u1" ⟨5, 5, ["u1"]⟩).2.available = 6 ∧
    (cancel "u1" ⟨5, 5, ["u1"]⟩).2.available > (cancel "u1" ⟨5, 5, ["u1"]⟩).2.total := by
  refine ⟨rfl, by decide, by decide⟩

/-- Claim C3 (amended): Cancel fails with NotFound when no active reservation
exists for the pair (leaving the state unchanged), and otherwise atomically
deletes the reservation and increments `available` by exactly 1, with no cap
against `total`. -/
theorem cancel_spec (u : String) (s : WState) :
    (u ∉ s.reservations → cancel u s = (.error .notFound, s)) ∧
    (u ∈ s.reservations →
      (cancel u s).1 = .ok () ∧
      (cancel u s).2.available = s.available + 1 ∧
      (cancel u s).2.reservations = s.reservations.erase u ∧
      (cancel u s).2.total = s.total) := by
  constructor
  · intro h; unfold cancel; simp [h]
  · intro h; unfold cancel; simp [h]

/-- Witness for `cancel_spec` at a concrete input. -/
theorem cancel_spec_witness :
    ("u1" ∈ (⟨3, 1, ["u1", "u2"]⟩ : WState).reservations) ∧
    ((cancel "u1" ⟨3, 1, ["u1", "u2"]⟩).1 = .ok () ∧
     (cancel "u1" ⟨3, 1, ["u1", "u2"]⟩).2.available = (1:Int) + 1 ∧
     (cancel "u1" ⟨3, 1, ["u1", "u2"]⟩).2.reservations = ["u1", "u2"].erase "u1" ∧
     (cancel "u1" ⟨3, 1, ["u1", "u2"]⟩).2.total = (3:Int)) :=
  ⟨by decide, (cancel_spec "u1" ⟨3, 1, ["u1", "u2"]⟩).2 (by decide)⟩

/-! ## QR check-in engine: global server state

Embeds the tables and in-memory structures of the server that the QR
endpoints read and write.  `dbTokens` is the `qr_tokens` table (workshop-scoped
tokens); `memTokens` is the in-memory `qrTokens` Map (user-scoped tokens);
`events` is the ordered log of `broadcastEvent` calls (kind plus the
`newToken` payload field when the event carries one). -/

structure Reservation where
  userId : String
  workshopId : String
deriving DecidableEq, Repr

structure AttRecord where
  userId : String
  workshopId : String
deriving DecidableEq, Repr

structure QrToken where
  token : String
  workshopId : String
  createdAt : Int
  expiresAt : Int
  used : Bool
deriving DecidableEq, Repr

structure MemToken where
  userId : String
  workshopId : String
  expiresAt : Int
deriving DecidableEq, Repr

structure Event where
  kind : String
  newToken : Option String
deriving DecidableEq, Repr

structure ServerState where
  users : List String
  workshops : List String
  reservations : List Reservation
  attendance : List AttRecord
  dbTokens : List QrToken
  memTokens : List (String × MemToken)
  events : List Event
deriving DecidableEq, Repr

/-- `SELECT 1 FROM reservations WHERE userId=? AND workshopId=?`. -/
def hasReservation (s : ServerState) (u w : String) : Bool :=
  s.reservations.any (fun r => r.userId = u && r.workshopId = w)

/-- `SELECT 1 FROM attendance WHERE userId=? AND workshopId=?`. -/
def hasAttendance (s : ServerState) (u w : String) : Bool :=
  s.attendance.any (fun a => a.userId = u && a.workshopId = w)

/-- `SELECT * FROM qr_tokens WHERE token=? AND workshopId=?` (token is the
primary key, so at most one row matches). -/
def findToken (ts : List QrToken) (tok w : String) : Option QrToken :=
  ts.find? (fun t => t.token = tok && t.workshopId = w)

/-- Lookup in the in-memory `qrTokens` Map. -/
def lookupMem (s : ServerState) (tok : String) : Option MemToken :=
  (s.memTokens.find? (fun p => p.1 = tok)).map (·.2)

/-- `qrTokens.delete(token)`. -/
def removeMem (s : ServerState) (tok : String) : ServerState :=
  { s with memTokens := s.memTokens.filter (fun p => ¬ p.1 = tok) }

/-- `broadcastEvent(kind, data)`: append to the ordered delivery log. -/
def pushEvent (s : ServerState) (e : Event) : ServerState :=
  { s with events := s.events ++ [e] }

inductive CheckinError
  | userNotFound
  | noReservation
  | invalidToken
  | alreadyUsed
  | tokenExpired
  | alreadyCheckedIn
deriving DecidableEq, Repr

inductive GenError
  | workshopNotFound
  | noReservation
deriving DecidableEq, Repr

/-- `POST /qr/generate-workshop` (part_002 lines 302-330): check the workshop
exists; `DELETE FROM qr_tokens WHERE expiresAt < ? OR workshopId = ?` (all
tokens of this workshop, plus expired ones elsewhere); insert the fresh token
row with `used` defaulting to false.  The random token and its randomized
`expiresAt` (now + 10-30s) are passed in as arguments. -/
def generateWorkshop (now : Int) (wid tok : String) (expiresAt : Int)
    (s : ServerState) : Except GenError Unit × ServerState :=
  if wid ∈ s.workshops then
    let s1 := { s with dbTokens :=
      s.dbTokens.filter (fun t => ¬ (t.expiresAt < now ∨ t.workshopId = wid)) }
    let s2 := { s1 with dbTokens := s1.dbTokens ++ [⟨tok, wid, now, expiresAt, false⟩] }
    (.ok (), s2)
  else (.error .workshopNotFound, s)

/-- `POST /qr/validate-workshop` (part_002 lines 333-417): user lookup;
reservation lookup; token row lookup by (token, workshopId); `used` check;
expiry check (deleting the expired row); attendance-duplicate check; then one
transaction inserting the attendance row and setting `used = TRUE`; broadcast
an `attendance` event, broadcast a `qr_used` event carrying the fresh token,
and insert the fresh rotated token row. -/
def validateWorkshop (now : Int) (tok wid uid newTok : String) (newExpiresAt : Int)
    (s : ServerState) : Except CheckinError Unit × ServerState :=
  if uid ∈ s.users then
    if hasReservation s uid wid then
      match findToken s.dbTokens tok wid with
      | none => (.error .invalidToken, s)
      | some qr =>
        if qr.used then (.error .alreadyUsed, s)
        else if qr.expiresAt < now then
          (.error .tokenExpired,
           { s with dbTokens := s.dbTokens.filter (fun t => ¬ t.token = tok) })
        else if hasAttendance s uid wid then (.error .alreadyCheckedIn, s)
        else
          let s1 := { s with
            attendance := s.attendance ++ [⟨uid, wid⟩],
            dbTokens := s.dbTokens.map
              (fun t => if t.token = tok then { t with used := true } else t) }
          let s2 := pushEvent s1 ⟨"attendance", none⟩
          let s3 := pushEvent s2 ⟨"qr_used", some newTok⟩
          let s4 := { s3 with dbTokens := s3.dbTokens ++ [⟨newTok, wid, now, newExpiresAt, false⟩] }
          (.ok (), s4)
    else (.error .noReservation, s)
  else (.error .userNotFound, s)

/-- `POST /qr/generate` (index.js lines 219-233): check a reservation exists
for the pair, then store the fresh user-scoped token in the in-memory map with
`expiresAt = now + lifetime` (10s in index.js, 30s in part_002). -/
def qrGenerate (now : Int) (uid wid tok : String) (lifetime : Int)
    (s : ServerState) : Except GenError Unit × ServerState :=
  if hasReservation s uid wid then
    (.ok (), { s with memTokens :=
      s.memTokens.filter (fun p => ¬ p.1 = tok) ++ [(tok, ⟨uid, wid, now + lifetime⟩)] })
  else (.error .noReservation, s)

/-- `POST /qr/validate` (index.js lines 236-285): in-memory token lookup
("Invalid or expired token" when absent); expiry check (deleting the entry);
user lookup; attendance-duplicate check (deleting the entry); then insert the
attendance row, delete the token and broadcast an `attendance` event.  There
is no reservation lookup anywhere in this handler. -/
def qrValidate (now : Int) (tok : String) (s : ServerState) :
    Except CheckinError Unit × ServerState :=
  match lookupMem s tok with
  | none => (.error .invalidToken, s)
  | some td =>
    if td.expiresAt < now then (.error .tokenExpired, removeMem s tok)
    else if td.userId ∈ s.users then
      if hasAttendance s td.userId td.workshopId then
        (.error .alreadyCheckedIn, removeMem s tok)
      else
        let s1 := { s with attendance := s.attendance ++ [⟨td.userId, td.workshopId⟩] }
        let s2 := removeMem s1 tok
        let s3 := pushEvent s2 ⟨"attendance", none⟩
        (.ok (), s3)
    else (.error .userNotFound, s)

/-! ## Helper lemmas about token lookup -/

theorem findToken_filter_not_token (ts : List QrToken) (tok w : String) :
    findToken (ts.filter (fun t => ¬ t.token = tok)) tok w = none := by
  unfold findToken
  rw [List.find?_eq_none]
  intro t ht
  have h2 := (List.mem_filter.mp ht).2
  simp only [decide_not, Bool.not_eq_true', decide_eq_false_iff_not] at h2
  simp [h2]

theorem findToken_map_setUsed (ts : List QrToken) (tok w : String) (qr : QrToken)
    (h : findToken ts tok w = some qr) :
    findToken (ts.map (fun t => if t.token = tok then { t with used := true } else t)) tok w
      = some { qr with used := true } := by
  unfold findToken at h ⊢
  rw [List.find?_map]
  have hcomp : List.find?
      ((fun (t : QrToken) => decide (t.token = tok) && decide (t.workshopId = w)) ∘
       (fun (t : QrToken) => if t.token = tok then { t with used := true } else t)) ts
      = some qr := by
    rw [← h]
    congr 1
    funext t
    by_cases hc : t.token = tok <;> simp [hc]
  rw [hcomp]
  have hq := List.find?_some h
  simp only [Bool.and_eq_true, decide_eq_true_eq] at hq
  simp [hq.1]

theorem findToken_after_consume (s : ServerState) (tok wid newTok : String)
    (now newExpiresAt : Int) (qr : QrToken)
    (h : findToken s.dbTokens tok wid = some qr) :
    findToken
      (s.dbTokens.map (fun t => if t.token = tok then { t with used := true } else t)
        ++ [⟨newTok, wid, now, newExpiresAt, false⟩]) tok wid
      = some { qr with used := true } := by
  unfold findToken at h ⊢
  rw [List.find?_append]
  have := findToken_map_setUsed s.dbTokens tok wid qr h
  unfold findToken at this
  rw [this]
  rfl

/-- Claim C2: in the workshop-scoped validate (the Token Store `Consume`),
once the flow reaches the token checks (user exists, reservation exists, no
prior attendance), it fails with InvalidToken exactly when the token is
unknown or scoped to a different workshop; with AlreadyUsed exactly when the
row's `used` flag is set; with TokenExpired exactly when the row is unused but
`expiresAt < now` (deleting the row); and otherwise succeeds, marking the
row's `used` flag true — the checks evaluated in exactly that order. -/
theorem consume_check_order (now : Int) (tok wid uid newTok : String)
    (newExpiresAt : Int) (s : ServerState)
    (hu : uid ∈ s.users) (hr : hasReservation s uid wid = true)
    (ha : hasAttendance s uid wid = false) :
    (findToken s.dbTokens tok wid = none →
      validateWorkshop now tok wid uid newTok newExpiresAt s = (.error .invalidToken, s)) ∧
    (∀ qr, findToken s.dbTokens tok wid = some qr → qr.used = true →
      validateWorkshop now tok wid uid newTok newExpiresAt s = (.error .alreadyUsed, s)) ∧
    (∀ qr, findToken s.dbTokens tok wid = some qr → qr.used = false →
      qr.expiresAt < now →
      validateWorkshop now tok wid uid newTok newExpiresAt s = (.error .tokenExpired,
        { s with dbTokens := s.dbTokens.filter (fun t => ¬ t.token = tok) })) ∧
    (∀ qr, findToken s.dbTokens tok wid = some qr → qr.used = false →
      ¬ qr.expiresAt < now →
      (validateWorkshop now tok wid uid newTok newExpiresAt s).1 = .ok () ∧
      (findToken (validateWorkshop now tok wid uid newTok newExpiresAt s).2.dbTokens tok wid).map
        QrToken.used = some true) := by
  refine ⟨?_, ?_, ?_, ?_⟩
  · intro hnone
    unfold validateWorkshop
    simp [hu, hr, hnone]
  · intro qr hfind hused
    unfold validateWorkshop
    simp [hu, hr, hfind, hused]
  · intro qr hfind hused hexp
    unfold validateWorkshop
    simp [hu, hr, hfind, hused, hexp]
  · intro qr hfind hused hexp
    refine ⟨?_, ?_⟩
    · unfold validateWorkshop
      simp [hu, hr, hfind, hused, hexp, ha, pushEvent]
    · have h2 : (validateWorkshop now tok wid uid newTok newExpiresAt s).2.dbTokens
          = s.dbTokens.map (fun t => if t.token = tok then { t with used := true } else t)
            ++ [⟨newTok, wid, now, newExpiresAt, false⟩] := by
        unfold validateWorkshop
        simp [hu, hr, hfind, hused, hexp, ha, pushEvent]
      rw [h2, findToken_after_consume s tok wid newTok now newExpiresAt qr hfind]
      rfl

theorem find?_filter_not_key (l : List (String × MemToken)) (tok : String) :
    (l.filter (fun p => ¬ p.1 = tok)).find? (fun p => p.1 = tok) = none := by
  rw [List.find?_eq_none]
  intro p hp
  have h2 := (List.mem_filter.mp hp).2
  simp only [decide_not, Bool.not_eq_true', decide_eq_false_iff_not] at h2
  simp [h2]

theorem lookupMem_removeMem (s : ServerState) (tok : String) :
    lookupMem (removeMem s tok) tok = none := by
  unfold lookupMem removeMem
  simp only
  rw [find?_filter_not_key]
  rfl

theorem qrValidate_of_lookup_none (now : Int) (tok : String) (s : ServerState)
    (h : lookupMem s tok = none) : qrValidate now tok s = (.error .invalidToken, s) := by
  unfold qrValidate
  simp [h]

theorem two_le_length_of_mem_ne {α : Type} {l : List α} {a b : α}
    (ha : a ∈ l) (hb : b ∈ l) (hne : a ≠ b) : 2 ≤ l.length := by
  match l with
  | [] => cases ha
  | [x] =>
    rw [List.mem_singleton] at ha hb
    exact absurd (ha.trans hb.symm) hne
  | x :: y :: rest =>
    simp only [List.length_cons]
    omega

/-- Case description of `POST /qr/validate-workshop`: either all the guards
pass and the handler commits the full success mutation, or it fails, leaving
attendance, events and the in-memory map untouched and the token table either
untouched or with the expired row deleted. -/
theorem validateWorkshop_shape (now : Int) (tok wid uid newTok : String)
    (newExpiresAt : Int) (s : ServerState) :
    (uid ∈ s.users ∧ hasReservation s uid wid = true ∧ hasAttendance s uid wid = false ∧
     (∃ qr, findToken s.dbTokens tok wid = some qr ∧ qr.used = false ∧ ¬ qr.expiresAt < now) ∧
     validateWorkshop now tok wid uid newTok newExpiresAt s =
       (.ok (), { s with
         attendance := s.attendance ++ [⟨uid, wid⟩],
         dbTokens := s.dbTokens.map (fun t => if t.token = tok then { t with used := true } else t)
           ++ [⟨newTok, wid, now, newExpiresAt, false⟩],
         events := s.events ++ [⟨"attendance", none⟩, ⟨"qr_used", some newTok⟩] }))
    ∨ ((validateWorkshop now tok wid uid newTok newExpiresAt s).1 ≠ .ok () ∧
       (validateWorkshop now tok wid uid newTok newExpiresAt s).2.attendance = s.attendance ∧
       (validateWorkshop now tok wid uid newTok newExpiresAt s).2.events = s.events ∧
       (validateWorkshop now tok wid uid newTok newExpiresAt s).2.memTokens = s.memTokens ∧
       ((validateWorkshop now tok wid uid newTok newExpiresAt s).2.dbTokens = s.dbTokens ∨
        (validateWorkshop now tok wid uid newTok newExpiresAt s).2.dbTokens
          = s.dbTokens.filter (fun t => ¬ t.token = tok))) := by
  by_cases h1 : uid ∈ s.users
  · by_cases h2 : hasReservation s uid wid = true
    · cases hf : findToken s.dbTokens tok wid with
      | none =>
        right; unfold validateWorkshop; simp [h1, h2, hf]
      | some qr =>
        by_cases h3 : qr.used = true
        · right; unfold validateWorkshop; simp [h1, h2, hf, h3]
        · have h3' : qr.used = false := eq_false_of_ne_true h3
          by_cases h4 : qr.expiresAt < now
          · right; unfold validateWorkshop; simp [h1, h2, hf, h3', h4]
          · by_cases h5 : hasAttendance s uid wid = true
            · right; unfold validateWorkshop; simp [h1, h2, hf, h3', h4, h5]
            · have h5' : hasAttendance s uid wid = false := eq_false_of_ne_true h5
              left
              refine ⟨h1, h2, h5', ⟨qr, rfl, h3', h4⟩, ?_⟩
              unfold validateWorkshop
              simp [h1, h2, hf, h3', h4, h5', pushEvent]
    · right; unfold validateWorkshop; simp [h1, h2]
  · right; unfold validateWorkshop; simp [h1]

/-- Case description of `POST /qr/validate` (user-scoped): either all the
guards pass and the handler records attendance, deletes the in-memory token
and broadcasts one `attendance` event, or it fails, leaving attendance, the
token table and events untouched and the in-memory map either untouched or
with the presented token deleted. -/
theorem qrValidate_shape (now : Int) (tok : String) (s : ServerState) :
    (∃ td, lookupMem s tok = some td ∧ ¬ td.expiresAt < now ∧ td.userId ∈ s.users ∧
      hasAttendance s td.userId td.workshopId = false ∧
      qrValidate now tok s = (.ok (), { s with
        attendance := s.attendance ++ [⟨td.userId, td.workshopId⟩],
        memTokens := s.memTokens.filter (fun p => ¬ p.1 = tok),
        events := s.events ++ [⟨"attendance", none⟩] }))
    ∨ ((qrValidate now tok s).1 ≠ .ok () ∧
       (qrValidate now tok s).2.attendance = s.attendance ∧
       (qrValidate now tok s).2.dbTokens = s.dbTokens ∧
       (qrValidate now tok s).2.events = s.events ∧
       ((qrValidate now tok s).2.memTokens = s.memTokens ∨
        (qrValidate now tok s).2.memTokens = s.memTokens.filter (fun p => ¬ p.1 = tok))) := by
  cases hm : lookupMem s tok with
  | none => right; unfold qrValidate; simp [hm]
  | some td =>
    by_cases h1 : td.expiresAt < now
    · right; unfold qrValidate; simp [hm, h1, removeMem]
    · by_cases h2 : td.userId ∈ s.users
      · by_cases h3 : hasAttendance s td.userId td.workshopId = true
        · right; unfold qrValidate; simp [hm, h1, h2, h3, removeMem]
        · have h3' : hasAttendance s td.userId td.workshopId = false := eq_false_of_ne_true h3
          left
          refine ⟨td, rfl, h1, h2, h3', ?_⟩
          unfold qrValidate
          simp [hm, h1, h2, h3', removeMem, pushEvent]
      · right; unfold qrValidate; simp [hm, h1, h2]

/-- A concrete state used to instantiate theorems: one user `u1` with a
reservation for workshop `w1`, no attendance yet, and one fresh (unused,
expires at 2000) workshop-scoped token `t1`. -/
def freshTokState : ServerState :=
  ⟨["u1"], ["w1"], [⟨"u1", "w1"⟩], [], [⟨"t1", "w1", 0, 2000, false⟩], [], []⟩

/-- A concrete state whose only workshop-scoped token `t1` is already used. -/
def usedTokState : ServerState :=
  ⟨["u1"], ["w1"], [⟨"u1", "w1"⟩], [], [⟨"t1", "w1", 0, 2000, true⟩], [], []⟩

/-- Witness for `consume_check_order` at a concrete input (AlreadyUsed case). -/
theorem consume_check_order_witness :
    ("u1" ∈ usedTokState.users ∧ hasReservation usedTokState "u1" "w1" = true ∧
     hasAttendance usedTokState "u1" "w1" = false) ∧
    validateWorkshop 100 "t1" "w1" "u1" "t2" 900 usedTokState =
      (.error .alreadyUsed, usedTokState) :=
  ⟨⟨by decide, by decide, by decide⟩,
   (consume_check_order 100 "t1" "w1" "u1" "t2" 900 usedTokState
      (by decide) (by decide) (by decide)).2.1
     ⟨"t1", "w1", 0, 2000, true⟩ (by decide) rfl⟩

/-- Claim C10: in the workshop-scoped check-in, from a state where the pair
has no attendance record and the presented token row is unused, the attendance
insertion and the setting of the token's `used` flag commit together: after
the call, the attendance record exists if and only if the token is marked
used (the two writes happen inside one `dbh.transaction`). -/
theorem checkin_tx_both_or_neither (now : Int) (tok wid uid newTok : String)
    (newExpiresAt : Int) (s : ServerState) (qr : QrToken)
    (ha : hasAttendance s uid wid = false)
    (hfind : findToken s.dbTokens tok wid = some qr)
    (hused : qr.used = false) :
    hasAttendance (validateWorkshop now tok wid uid newTok newExpiresAt s).2 uid wid = true
      ↔ (findToken (validateWorkshop now tok wid uid newTok newExpiresAt s).2.dbTokens tok wid).map
          QrToken.used = some true := by
  rcases validateWorkshop_shape now tok wid uid newTok newExpiresAt s with
    ⟨h1, h2, h5, hex, heq⟩ | ⟨hfail, hatt, hev, hmem, hdb⟩
  · have hatt2 : (validateWorkshop now tok wid uid newTok newExpiresAt s).2.attendance
        = s.attendance ++ [⟨uid, wid⟩] := by rw [heq]
    have hdb2 : (validateWorkshop now tok wid uid newTok newExpiresAt s).2.dbTokens
        = s.dbTokens.map (fun t => if t.token = tok then { t with used := true } else t)
          ++ [⟨newTok, wid, now, newExpiresAt, false⟩] := by rw [heq]
    apply iff_of_true
    · unfold hasAttendance
      rw [hatt2]
      simp
    · rw [hdb2, findToken_after_consume s tok wid newTok now newExpiresAt qr hfind]
      rfl
  · apply iff_of_false
    · unfold hasAttendance at ha ⊢
      rw [hatt]
      simp [ha]
    · rcases hdb with h | h <;> rw [h]
      · rw [hfind]
        simp [hused]
      · rw [findToken_filter_not_token]
        simp

/-- Witness for `checkin_tx_both_or_neither` at a concrete input. -/
theorem checkin_tx_both_or_neither_witness :
    (hasAttendance freshTokState "u1" "w1" = false ∧
     findToken freshTokState.dbTokens "t1" "w1" = some ⟨"t1", "w1", 0, 2000, false⟩) ∧
    (hasAttendance (validateWorkshop 1000 "t1" "w1" "u1" "t2" 3000 freshTokState).2 "u1" "w1" = true
      ↔ (findToken (validateWorkshop 1000 "t1" "w1" "u1" "t2" 3000 freshTokState).2.dbTokens
          "t1" "w1").map QrToken.used = some true) :=
  ⟨⟨by decide, by decide⟩,
   checkin_tx_both_or_neither 1000 "t1" "w1" "u1" "t2" 3000 freshTokState
     ⟨"t1", "w1", 0, 2000, false⟩ (by decide) (by decide) rfl⟩

/-- A concrete state where `u1` has already attended `w1` while `u2` has a
reservation but no attendance, and the fresh token `t1` is live. -/
def dupAttState : ServerState :=
  ⟨["u1", "u2"], ["w1"], [⟨"u1", "w1"⟩, ⟨"u2", "w1"⟩], [⟨"u1", "w1"⟩],
   [⟨"t1", "w1", 0, 2000, false⟩], [], []⟩

/-- C5 counterexample: in the workshop-scoped flow an AlreadyCheckedIn failure
does NOT consume the token.  `u1` (already checked in) presents live token
`t1`: the call fails AlreadyCheckedIn and leaves the state — including the
token, still unused — unchanged, and the very same token is then accepted for
`u2`. -/
theorem alreadyCheckedIn_leaves_token_unconsumed :
    validateWorkshop 1000 "t1" "w1" "u1" "t9" 3000 dupAttState =
      (.error .alreadyCheckedIn, dupAttState) ∧
    (findToken dupAttState.dbTokens "t1" "w1").map QrToken.used = some false ∧
    (validateWorkshop 1000 "t1" "w1" "u2" "t9" 3000 dupAttState).1 = .ok () :=
  ⟨rfl, rfl, rfl⟩

/-- Claim C5 (amended): when a check-in fails with AlreadyCheckedIn, the
user-scoped flow has deleted the presented token (so any subsequent Consume
fails InvalidToken), but the workshop-scoped flow performs the attendance
check before consuming and leaves the whole state — token included —
unchanged, so there the token remains valid. -/
theorem alreadyCheckedIn_consumption (now now2 : Int) (tok wid uid newTok : String)
    (newExpiresAt : Int) (s : ServerState) :
    ((validateWorkshop now tok wid uid newTok newExpiresAt s).1 = .error .alreadyCheckedIn →
      (validateWorkshop now tok wid uid newTok newExpiresAt s).2 = s) ∧
    ((qrValidate now tok s).1 = .error .alreadyCheckedIn →
      (qrValidate now2 tok (qrValidate now tok s).2).1 = .error .invalidToken) := by
  constructor
  · intro h
    unfold validateWorkshop at h ⊢
    by_cases h1 : uid ∈ s.users
    · by_cases h2 : hasReservation s uid wid = true
      · cases hf : findToken s.dbTokens tok wid with
        | none => simp [h1, h2, hf] at h
        | some qr =>
          by_cases h3 : qr.used = true
          · simp [h1, h2, hf, h3] at h
          · have h3' := eq_false_of_ne_true h3
            by_cases h4 : qr.expiresAt < now
            · simp [h1, h2, hf, h3', h4] at h
            · by_cases h5 : hasAttendance s uid wid = true
              · simp [h1, h2, hf, h3', h4, h5]
              · have h5' := eq_false_of_ne_true h5
                simp [h1, h2, hf, h3', h4, h5', pushEvent] at h
      · simp [h1, h2] at h
    · simp [h1] at h
  · intro h
    cases hm : lookupMem s tok with
    | none =>
      exfalso
      unfold qrValidate at h
      rw [hm] at h
      simp at h
    | some td =>
      by_cases h1 : td.expiresAt < now
      · exfalso
        unfold qrValidate at h
        rw [hm] at h
        simp [h1] at h
      · by_cases h2 : td.userId ∈ s.users
        · by_cases h3 : hasAttendance s td.userId td.workshopId = true
          · have hres : (qrValidate now tok s).2 = removeMem s tok := by
              unfold qrValidate
              rw [hm]
              simp [h1, h2, h3]
            rw [hres, qrValidate_of_lookup_none now2 tok _ (lookupMem_removeMem s tok)]
          · exfalso
            have h3' := eq_false_of_ne_true h3
            unfold qrValidate at h
            rw [hm] at h
            simp [h1, h2, h3', pushEvent, removeMem] at h
        · exfalso
          unfold qrValidate at h
          rw [hm] at h
          simp [h1, h2] at h

/-- Witness for `alreadyCheckedIn_consumption` at a concrete input. -/
theorem alreadyCheckedIn_consumption_witness :
    (validateWorkshop 1000 "t1" "w1" "u1" "t9" 3000 dupAttState).1 = .error .alreadyCheckedIn ∧
    (validateWorkshop 1000 "t1" "w1" "u1" "t9" 3000 dupAttState).2 = dupAttState :=
  ⟨rfl, (alreadyCheckedIn_consumption 1000 0 "t1" "w1" "u1" "t9" 3000 dupAttState).1 rfl⟩

/-- A concrete state with a live user-scoped (in-memory) token `t1` for the
pair (`u1`, `w1`), which also holds a reservation. -/
def memTokState : ServerState :=
  ⟨["u1"], ["w1"], [⟨"u1", "w1"⟩], [], [], [("t1", ⟨"u1", "w1", 2000⟩)], []⟩

/-- C6 counterexample: after a successful user-scoped check-in the token is
deleted, so replaying the same token fails with InvalidToken ("Invalid or
expired token"), not AlreadyUsed and not AlreadyCheckedIn. -/
theorem checkin_replay_kind :
    (qrValidate 1000 "t1" memTokState).1 = .ok () ∧
    (qrValidate 1000 "t1" (qrValidate 1000 "t1" memTokState).2).1 = .error .invalidToken ∧
    ¬ (qrValidate 1000 "t1" (qrValidate 1000 "t1" memTokState).2).1 = .error .alreadyUsed ∧
    ¬ (qrValidate 1000 "t1" (qrValidate 1000 "t1" memTokState).2).1 = .error .alreadyCheckedIn := by
  have h2 : (qrValidate 1000 "t1" (qrValidate 1000 "t1" memTokState).2).1
      = .error .invalidToken := rfl
  refine ⟨rfl, h2, ?_, ?_⟩
  · rw [h2]; simp
  · rw [h2]; simp

/-- Claim C6 (amended): after a successful user-scoped check-in that consumed
token T, replaying the check-in with T fails — with kind InvalidToken, because
the token entry was deleted on success. -/
theorem user_token_replay_fails (now now2 : Int) (tok : String) (s : ServerState)
    (h : (qrValidate now tok s).1 = .ok ()) :
    (qrValidate now2 tok (qrValidate now tok s).2).1 = .error .invalidToken := by
  rcases qrValidate_shape now tok s with ⟨td, hm, h1, h2, h3, heq⟩ | ⟨hfail, _⟩
  · have hmem2 : (qrValidate now tok s).2.memTokens
        = s.memTokens.filter (fun p => ¬ p.1 = tok) := by rw [heq]
    have hlk : lookupMem (qrValidate now tok s).2 tok = none := by
      unfold lookupMem
      rw [hmem2, find?_filter_not_key]
      rfl
    rw [qrValidate_of_lookup_none now2 tok _ hlk]
  · exact absurd h hfail

/-- Witness for `user_token_replay_fails` at a concrete input. -/
theorem user_token_replay_fails_witness :
    (qrValidate 1000 "t1" memTokState).1 = .ok () ∧
    (qrValidate 500 "t1" (qrValidate 1000 "t1" memTokState).2).1 = .error .invalidToken :=
  ⟨rfl, user_token_replay_fails 1000 500 "t1" memTokState rfl⟩

/-- A concrete state holding a live user-scoped token for (`u1`, `w1`) but NO
reservation for that pair (for instance, cancelled after issuance). -/
def noResState : ServerState :=
  ⟨["u1"], ["w1"], [], [], [], [("t1", ⟨"u1", "w1", 2000⟩)], []⟩

/-- C8 counterexample: the user-scoped `POST /qr/validate` never looks up the
reservation, so a check-in succeeds for a pair with no active reservation at
check-in time. -/
theorem user_scoped_checkin_skips_reservation :
    hasReservation noResState "u1" "w1" = false ∧
    (qrValidate 1000 "t1" noResState).1 = .ok () ∧
    hasAttendance (qrValidate 1000 "t1" noResState).2 "u1" "w1" = true := by
  refine ⟨by decide, rfl, by decide⟩

/-- Claim C8 (amended): the workshop-scoped check-in checks the reservation
before touching the token and fails NoReservation (state unchanged) when it is
absent, and user-scoped token issuance requires a reservation; but the
user-scoped check-in itself performs no reservation check (its reservation was
checked only at issuance time). -/
theorem reservation_check_before_consume (now : Int) (tok wid uid newTok tok2 : String)
    (newExpiresAt lifetime : Int) (s : ServerState) :
    (uid ∈ s.users → hasReservation s uid wid = false →
      validateWorkshop now tok wid uid newTok newExpiresAt s = (.error .noReservation, s)) ∧
    (hasReservation s uid wid = false →
      qrGenerate now uid wid tok2 lifetime s = (.error .noReservation, s)) := by
  constructor
  · intro h1 h2
    unfold validateWorkshop
    simp [h1, h2]
  · intro h2
    unfold qrGenerate
    simp [h2]

/-- Witness for `reservation_check_before_consume` at a concrete input. -/
theorem reservation_check_before_consume_witness :
    ("u1" ∈ noResState.users ∧ hasReservation noResState "u1" "w1" = false) ∧
    validateWorkshop 1000 "t1" "w1" "u1" "t2" 3000 noResState =
      (.error .noReservation, noResState) :=
  ⟨⟨by decide, by decide⟩,
   (reservation_check_before_consume 1000 "t1" "w1" "u1" "t2" "t3" 3000 10000 noResState).1
     (by decide) (by decide)⟩

/-- C9 counterexample: the event published after a successful workshop-scoped
check-in alongside the fresh token has kind `qr_used`; no `token_rotated`
event is ever emitted. -/
theorem rotation_event_is_qr_used :
    (validateWorkshop 1000 "t1" "w1" "u1" "t2" 3000 freshTokState).1 = .ok () ∧
    (validateWorkshop 1000 "t1" "w1" "u1" "t2" 3000 freshTokState).2.events =
      [⟨"attendance", none⟩, ⟨"qr_used", some "t2"⟩] ∧
    ((validateWorkshop 1000 "t1" "w1" "u1" "t2" 3000 freshTokState).2.events.all
      (fun e => ¬ e.kind = "token_rotated")) = true := by
  refine ⟨rfl, rfl, by decide⟩

/-- Claim C9 (amended): after every successful workshop-scoped check-in the
handler inserts a fresh token for the same workshop and publishes an event of
kind `qr_used` (not `token_rotated`) carrying the new token, after the
`attendance` event. -/
theorem rotation_after_checkin (now : Int) (tok wid uid newTok : String)
    (newExpiresAt : Int) (s : ServerState) (qr : QrToken)
    (h1 : uid ∈ s.users) (h2 : hasReservation s uid wid = true)
    (hf : findToken s.dbTokens tok wid = some qr) (h3 : qr.used = false)
    (h4 : ¬ qr.expiresAt < now) (h5 : hasAttendance s uid wid = false) :
    (validateWorkshop now tok wid uid newTok newExpiresAt s).1 = .ok () ∧
    (validateWorkshop now tok wid uid newTok newExpiresAt s).2.events
      = s.events ++ [⟨"attendance", none⟩, ⟨"qr_used", some newTok⟩] ∧
    (⟨newTok, wid, now, newExpiresAt, false⟩ : QrToken)
      ∈ (validateWorkshop now tok wid uid newTok newExpiresAt s).2.dbTokens := by
  have heq : validateWorkshop now tok wid uid newTok newExpiresAt s =
      (.ok (), { s with
        attendance := s.attendance ++ [⟨uid, wid⟩],
        dbTokens := s.dbTokens.map (fun t => if t.token = tok then { t with used := true } else t)
          ++ [⟨newTok, wid, now, newExpiresAt, false⟩],
        events := s.events ++ [⟨"attendance", none⟩, ⟨"qr_used", some newTok⟩] }) := by
    unfold validateWorkshop
    simp [h1, h2, hf, h3, h4, h5, pushEvent]
  refine ⟨by rw [heq], by rw [heq], ?_⟩
  have hdb : (validateWorkshop now tok wid uid newTok newExpiresAt s).2.dbTokens
      = s.dbTokens.map (fun t => if t.token = tok then { t with used := true } else t)
        ++ [⟨newTok, wid, now, newExpiresAt, false⟩] := by rw [heq]
  rw [hdb]
  simp

/-- Witness for `rotation_after_checkin` at a concrete input. -/
theorem rotation_after_checkin_witness :
    ("u1" ∈ freshTokState.users ∧ hasReservation freshTokState "u1" "w1" = true ∧
     findToken freshTokState.dbTokens "t1" "w1" = some ⟨"t1", "w1", 0, 2000, false⟩ ∧
     hasAttendance freshTokState "u1" "w1" = false) ∧
    ((validateWorkshop 1000 "t1" "w1" "u1" "t2" 3000 freshTokState).1 = .ok () ∧
     (validateWorkshop 1000 "t1" "w1" "u1" "t2" 3000 freshTokState).2.events
       = freshTokState.events ++ [⟨"attendance", none⟩, ⟨"qr_used", some "t2"⟩] ∧
     (⟨"t2", "w1", 1000, 3000, false⟩ : QrToken)
       ∈ (validateWorkshop 1000 "t1" "w1" "u1" "t2" 3000 freshTokState).2.dbTokens) :=
  ⟨⟨by decide, by decide, by decide, by decide⟩,
   rotation_after_checkin 1000 "t1" "w1" "u1" "t2" 3000 freshTokState
     ⟨"t1", "w1", 0, 2000, false⟩ (by decide) (by decide) (by decide) rfl
     (by decide) (by decide)⟩

/-- Number of attendance rows for one (user, workshop) pair. -/
def attCountL (l : List AttRecord) (u w : String) : Nat :=
  l.countP (fun a => a.userId = u && a.workshopId = w)

theorem attCountL_eq_zero_of_no_attendance (s : ServerState) (u w : String)
    (h : hasAttendance s u w = false) : attCountL s.attendance u w = 0 := by
  unfold hasAttendance at h
  unfold attCountL
  rw [List.countP_eq_zero]
  intro a hmem hpa
  have hany : s.attendance.any (fun a => a.userId = u && a.workshopId = w) = true :=
    List.any_eq_true.mpr ⟨a, hmem, hpa⟩
  rw [h] at hany
  exact Bool.noConfusion hany

theorem attCountL_insert_le (l : List AttRecord) (uid wid : String)
    (hbound : ∀ u w, attCountL l u w ≤ 1)
    (hzero : attCountL l uid wid = 0) :
    ∀ u w, attCountL (l ++ [⟨uid, wid⟩]) u w ≤ 1 := by
  intro u w
  have happ : attCountL (l ++ [(⟨uid, wid⟩ : AttRecord)]) u w
      = attCountL l u w + attCountL [(⟨uid, wid⟩ : AttRecord)] u w :=
    List.countP_append _ _ _
  have hone : attCountL [(⟨uid, wid⟩ : AttRecord)] u w ≤ 1 := by
    unfold attCountL
    simp only [List.countP_cons, List.countP_nil]
    split <;> omega
  by_cases hc : uid = u ∧ wid = w
  · have hz : attCountL l u w = 0 := by
      rw [← hc.1, ← hc.2]
      exact hzero
    rw [happ, hz]
    omega
  · have hz1 : attCountL [(⟨uid, wid⟩ : AttRecord)] u w = 0 := by
      unfold attCountL
      rw [List.countP_eq_zero]
      intro a ha
      rw [List.mem_singleton] at ha
      subst ha
      simp only [Bool.and_eq_true, decide_eq_true_eq]
      intro hcon
      exact hc ⟨hcon.1, hcon.2⟩
    have := hbound u w
    rw [happ, hz1]
    omega

/-- Claim C4: at most one attendance record per (user, workshop) pair.  A
check-in attempt for a pair that already has a record never succeeds and
never mutates the attendance table, and reports AlreadyCheckedIn once the
earlier guards pass; and both check-in handlers preserve the at-most-one-
record-per-pair invariant.  Covers the workshop-scoped and the user-scoped
flows. -/
theorem attendance_unique (now now2 : Int) (tok tok2 wid uid newTok : String)
    (newExpiresAt : Int) (s : ServerState) :
    (hasAttendance s uid wid = true →
      ¬ (validateWorkshop now tok wid uid newTok newExpiresAt s).1 = .ok () ∧
      (validateWorkshop now tok wid uid newTok newExpiresAt s).2.attendance = s.attendance) ∧
    (∀ qr, findToken s.dbTokens tok wid = some qr → qr.used = false →
      ¬ qr.expiresAt < now → uid ∈ s.users → hasReservation s uid wid = true →
      hasAttendance s uid wid = true →
      validateWorkshop now tok wid uid newTok newExpiresAt s = (.error .alreadyCheckedIn, s)) ∧
    (∀ td, lookupMem s tok2 = some td → hasAttendance s td.userId td.workshopId = true →
      ¬ (qrValidate now2 tok2 s).1 = .ok () ∧
      (qrValidate now2 tok2 s).2.attendance = s.attendance ∧
      (¬ td.expiresAt < now2 → td.userId ∈ s.users →
        qrValidate now2 tok2 s = (.error .alreadyCheckedIn, removeMem s tok2))) ∧
    ((∀ u w, attCountL s.attendance u w ≤ 1) →
      (∀ u w,
        attCountL (validateWorkshop now tok wid uid newTok newExpiresAt s).2.attendance u w ≤ 1) ∧
      (∀ u w, attCountL (qrValidate now2 tok2 s).2.attendance u w ≤ 1)) := by
  refine ⟨?_, ?_, ?_, ?_⟩
  · intro hdup
    rcases validateWorkshop_shape now tok wid uid newTok newExpiresAt s with
      ⟨_, _, h5, _, _⟩ | ⟨hfail, hatt, _, _, _⟩
    · rw [hdup] at h5
      exact absurd h5 (by simp)
    · exact ⟨hfail, hatt⟩
  · intro qr hf h3 h4 h1 h2 hdup
    unfold validateWorkshop
    simp [h1, h2, hf, h3, h4, hdup]
  · intro td hm hdup
    have hfacts : ¬ (qrValidate now2 tok2 s).1 = .ok () ∧
        (qrValidate now2 tok2 s).2.attendance = s.attendance := by
      rcases qrValidate_shape now2 tok2 s with
        ⟨td2, hm2, _, _, h32, _⟩ | ⟨hfail, hatt, _, _, _⟩
      · rw [hm] at hm2
        rw [Option.some.injEq] at hm2
        rw [← hm2] at h32
        rw [hdup] at h32
        exact absurd h32 (by simp)
      · exact ⟨hfail, hatt⟩
    refine ⟨hfacts.1, hfacts.2, ?_⟩
    intro hexp huser
    unfold qrValidate
    simp [hm, hexp, huser, hdup]
  · intro hbound
    constructor
    · intro u w
      rcases validateWorkshop_shape now tok wid uid newTok newExpiresAt s with
        ⟨_, _, h5, _, heq⟩ | ⟨_, hatt, _, _, _⟩
      · have hatt2 : (validateWorkshop now tok wid uid newTok newExpiresAt s).2.attendance
            = s.attendance ++ [⟨uid, wid⟩] := by rw [heq]
        rw [hatt2]
        exact attCountL_insert_le s.attendance uid wid hbound
          (attCountL_eq_zero_of_no_attendance s uid wid h5) u w
      · rw [hatt]
        exact hbound u w
    · intro u w
      rcases qrValidate_shape now2 tok2 s with
        ⟨td, hm, _, _, h3, heq⟩ | ⟨_, hatt, _, _, _⟩
      · have hatt2 : (qrValidate now2 tok2 s).2.attendance
            = s.attendance ++ [⟨td.userId, td.workshopId⟩] := by rw [heq]
        rw [hatt2]
        exact attCountL_insert_le s.attendance td.userId td.workshopId hbound
          (attCountL_eq_zero_of_no_attendance s td.userId td.workshopId h3) u w
      · rw [hatt]
        exact hbound u w

/-- Witness for `attendance_unique` at a concrete input (AlreadyCheckedIn on a
duplicate pair via the workshop-scoped flow). -/
theorem attendance_unique_witness :
    (findToken dupAttState.dbTokens "t1" "w1" = some ⟨"t1", "w1", 0, 2000, false⟩ ∧
     hasAttendance dupAttState "u1" "w1" = true) ∧
    validateWorkshop 1000 "t1" "w1" "u1" "t9" 3000 dupAttState =
      (.error .alreadyCheckedIn, dupAttState) :=
  ⟨⟨by decide, by decide⟩,
   (attendance_unique 1000 0 "t1" "tX" "w1" "u1" "t9" 3000 dupAttState).2.1
     ⟨"t1", "w1", 0, 2000, false⟩ (by decide) rfl (by decide) (by decide)
     (by decide) (by decide)⟩

/-- A token is live when its `used` flag is unset and it has not yet passed
the expiry check (`parseInt(expiresAt) < now`). -/
def isLive (now : Int) (t : QrToken) : Bool :=
  t.used = false && decide (¬ t.expiresAt < now)

/-- Number of live tokens of one workshop in the `qr_tokens` table. -/
def liveCount (s : ServerState) (wid : String) (now : Int) : Nat :=
  s.dbTokens.countP (fun t => t.workshopId = wid && isLive now t)

theorem liveCount_mono (s : ServerState) (wid : String) (now now' : Int)
    (h : now ≤ now') : liveCount s wid now' ≤ liveCount s wid now := by
  unfold liveCount
  apply List.countP_mono_left
  intro t _ hp
  simp only [isLive, Bool.and_eq_true, decide_eq_true_eq] at hp ⊢
  exact ⟨hp.1, hp.2.1, by omega⟩

theorem generateWorkshop_dbTokens (now : Int) (wid tok : String) (exp : Int)
    (s : ServerState) (hw : wid ∈ s.workshops) :
    (generateWorkshop now wid tok exp s).2.dbTokens
      = s.dbTokens.filter (fun t => ¬ (t.expiresAt < now ∨ t.workshopId = wid))
        ++ [⟨tok, wid, now, exp, false⟩] := by
  unfold generateWorkshop
  simp [hw]

theorem singleton_live_countP_le_one (x : QrToken) (wid : String) (now' : Int) :
    ([x] : List QrToken).countP (fun t => t.workshopId = wid && isLive now' t) ≤ 1 := by
  simp only [List.countP_cons, List.countP_nil]
  split <;> omega

theorem generateWorkshop_liveCount (now : Int) (wid tok : String) (exp : Int)
    (s : ServerState) (hw : wid ∈ s.workshops) (now' : Int) :
    liveCount (generateWorkshop now wid tok exp s).2 wid now' ≤ 1 := by
  unfold liveCount
  rw [generateWorkshop_dbTokens now wid tok exp s hw, List.countP_append]
  have h1 : (s.dbTokens.filter (fun t => ¬ (t.expiresAt < now ∨ t.workshopId = wid))).countP
      (fun t => t.workshopId = wid && isLive now' t) = 0 := by
    rw [List.countP_eq_zero]
    intro t ht hp
    have h2 := (List.mem_filter.mp ht).2
    simp only [decide_eq_true_eq, not_or] at h2
    simp only [Bool.and_eq_true, decide_eq_true_eq] at hp
    exact h2.2 hp.1
  have h2 := singleton_live_countP_le_one (⟨tok, wid, now, exp, false⟩ : QrToken) wid now'
  omega

theorem consume_map_live_countP_zero (now now' : Int) (tok wid : String)
    (s : ServerState) (qr : QrToken)
    (hlive : liveCount s wid now ≤ 1) (hmono : now ≤ now')
    (hf : findToken s.dbTokens tok wid = some qr)
    (h3 : qr.used = false) (h4 : ¬ qr.expiresAt < now) :
    (s.dbTokens.map (fun t => if t.token = tok then { t with used := true } else t)).countP
      (fun t => t.workshopId = wid && isLive now' t) = 0 := by
  have hqr_mem : qr ∈ s.dbTokens := List.mem_of_find?_eq_some hf
  have hqr_pred := List.find?_some hf
  simp only [Bool.and_eq_true, decide_eq_true_eq] at hqr_pred
  rw [List.countP_map, List.countP_eq_zero]
  intro t ht hp
  simp only [Function.comp] at hp
  split at hp
  · simp [isLive] at hp
  · rename_i hc
    simp only [isLive, Bool.and_eq_true, decide_eq_true_eq] at hp
    have hlive_now : (fun t => t.workshopId = wid && isLive now t) t = true := by
      simp only [isLive, Bool.and_eq_true, decide_eq_true_eq]
      exact ⟨hp.1, hp.2.1, by omega⟩
    have hqr_live : (fun t => t.workshopId = wid && isLive now t) qr = true := by
      simp only [isLive, Bool.and_eq_true, decide_eq_true_eq]
      exact ⟨hqr_pred.2, h3, h4⟩
    have htne : t ≠ qr := by
      intro hteq
      rw [hteq] at hc
      exact hc hqr_pred.1
    have htf : t ∈ s.dbTokens.filter (fun t => t.workshopId = wid && isLive now t) :=
      List.mem_filter.mpr ⟨ht, hlive_now⟩
    have hqf : qr ∈ s.dbTokens.filter (fun t => t.workshopId = wid && isLive now t) :=
      List.mem_filter.mpr ⟨hqr_mem, hqr_live⟩
    have h2le := two_le_length_of_mem_ne htf hqf htne
    unfold liveCount at hlive
    rw [List.countP_eq_length_filter] at hlive
    omega

theorem validateWorkshop_liveCount (now now' : Int) (tok wid uid newTok : String)
    (newExpiresAt : Int) (s : ServerState)
    (hlive : liveCount s wid now ≤ 1) (hmono : now ≤ now') :
    liveCount (validateWorkshop now tok wid uid newTok newExpiresAt s).2 wid now' ≤ 1 := by
  rcases validateWorkshop_shape now tok wid uid newTok newExpiresAt s with
    ⟨h1, h2, h5, ⟨qr, hf, h3, h4⟩, heq⟩ | ⟨_, _, _, _, hdb⟩
  · have hdb2 : (validateWorkshop now tok wid uid newTok newExpiresAt s).2.dbTokens
        = s.dbTokens.map (fun t => if t.token = tok then { t with used := true } else t)
          ++ [⟨newTok, wid, now, newExpiresAt, false⟩] := by rw [heq]
    unfold liveCount
    rw [hdb2, List.countP_append,
      consume_map_live_countP_zero now now' tok wid s qr hlive hmono hf h3 h4]
    have := singleton_live_countP_le_one (⟨newTok, wid, now, newExpiresAt, false⟩ : QrToken) wid now'
    omega
  · rcases hdb with h | h
    · have hthis : liveCount (validateWorkshop now tok wid uid newTok newExpiresAt s).2 wid now'
          = liveCount s wid now' := by
        unfold liveCount
        rw [h]
      rw [hthis]
      exact le_trans (liveCount_mono s wid now now' hmono) hlive
    · have hle : liveCount (validateWorkshop now tok wid uid newTok newExpiresAt s).2 wid now'
          ≤ liveCount s wid now := by
        unfold liveCount
        rw [h, List.countP_filter]
        apply List.countP_mono_left
        intro a _ hpa
        simp only [isLive, Bool.and_eq_true, decide_eq_true_eq] at hpa ⊢
        exact ⟨hpa.1.1, hpa.1.2.1, by omega⟩
      exact le_trans hle hlive

/-- A concrete state with one user holding a reservation for `w1` and no
tokens yet. -/
def scenState : ServerState :=
  ⟨["u1"], ["w1"], [⟨"u1", "w1"⟩], [], [], [], []⟩

/-- Claim C7: workshop-scoped issuance (`POST /qr/generate-workshop`) deletes
every existing token row of the same workshop, so after issuance the only
token of that workshop is the fresh one; both issuance and the check-in
rotation keep at most one live (unused, unexpired) token per workshop at any
later time; and issuing twice in succession makes Consume of the first token
fail InvalidToken while the second succeeds. -/
theorem workshop_token_single_live (now now' : Int) (tok uid newTok : String)
    (exp newExpiresAt : Int) (wid : String) (s : ServerState)
    (hw : wid ∈ s.workshops) (hlive : liveCount s wid now ≤ 1) (hmono : now ≤ now') :
    (∀ t ∈ (generateWorkshop now wid tok exp s).2.dbTokens, t.workshopId = wid →
        t = ⟨tok, wid, now, exp, false⟩) ∧
    liveCount (generateWorkshop now wid tok exp s).2 wid now' ≤ 1 ∧
    liveCount (validateWorkshop now tok wid uid newTok newExpiresAt s).2 wid now' ≤ 1 ∧
    ((validateWorkshop 300 "tA" "w1" "u1" "tC" 20300
        (generateWorkshop 200 "w1" "tB" 20200
          (generateWorkshop 100 "w1" "tA" 20100 scenState).2).2).1
      = .error .invalidToken ∧
     (validateWorkshop 300 "tB" "w1" "u1" "tC" 20300
        (generateWorkshop 200 "w1" "tB" 20200
          (generateWorkshop 100 "w1" "tA" 20100 scenState).2).2).1
      = .ok ()) := by
  refine ⟨?_, generateWorkshop_liveCount now wid tok exp s hw now',
    validateWorkshop_liveCount now now' tok wid uid newTok newExpiresAt s hlive hmono,
    rfl, rfl⟩
  intro t ht hwid
  rw [generateWorkshop_dbTokens now wid tok exp s hw] at ht
  rcases List.mem_append.mp ht with h | h
  · have h2 := (List.mem_filter.mp h).2
    simp only [decide_eq_true_eq, not_or] at h2
    exact absurd hwid h2.2
  · rw [List.mem_singleton] at h
    exact h

/-- Witness for `workshop_token_single_live` at a concrete input. -/
theorem workshop_token_single_live_witness :
    ("w1" ∈ scenState.workshops ∧ liveCount scenState "w1" 100 ≤ 1 ∧ (100 : Int) ≤ 400) ∧
    liveCount (generateWorkshop 100 "w1" "tA" 20100 scenState).2 "w1" 400 ≤ 1 :=
  ⟨⟨by decide, by decide, by decide⟩,
   (workshop_token_single_live 100 400 "tA" "u1" "tN" 20100 9999 "w1" scenState
     (by decide) (by decide) (by decide)).2.1⟩

end WorkshopApp
